import Mathlib

/-!
Shallow embedding of `manager.py`: a minimal authenticated REST client
(`URL` path joining, `AuthManager` credentials/headers, `RequestManager.request`).

Python strings are modelled as Lean `String` (a wrapper around `List Char`);
`str.rstrip('/')` / `str.lstrip('/')` become `dropWhile` on the (reversed)
character list. The external collaborators (`user_agent.generate_user_agent`,
the aiohttp network session, JSON decoding) are parameters of the request
function, since their behaviour is outside the repository.
-/

namespace Manager

/-- Characters are stripped while they equal a slash. -/
def isSlash (c : Char) : Bool := c == '/'

/-- List-level model of Python `s.lstrip('/')`: drop leading slashes. -/
def lstripL (l : List Char) : List Char := l.dropWhile isSlash

/-- List-level model of Python `s.rstrip('/')`: drop trailing slashes. -/
def rstripL (l : List Char) : List Char := (l.reverse.dropWhile isSlash).reverse

/-- List-level model of `URL.__truediv__`: strip the right end of the left
operand, the left end of the right operand, join with one slash. -/
def joinL (a b : List Char) : List Char := rstripL a ++ '/' :: lstripL b

/-- Python `s.lstrip('/')` on strings. -/
def lstripSlash (s : String) : String := ⟨lstripL s.data⟩

/-- Python `s.rstrip('/')` on strings. -/
def rstripSlash (s : String) : String := ⟨rstripL s.data⟩

/-- Model of `URL.__truediv__(self, other)`: the source builds the URL from
the right-stripped left operand, a slash, and the left-stripped right
operand. -/
def urlDiv (a b : String) : String := rstripSlash a ++ "/" ++ lstripSlash b

/-- A string made of `n` slashes (for the 0-3 trailing/leading slash property). -/
def slashes (n : Nat) : String := ⟨List.replicate n '/'⟩

/-- The `AuthManager` pydantic model: `username : Optional[str]` (default `None`),
`token : str` (required), `base_url : Optional[str]` (default "https://api.url";
a successfully validated model stores a string). -/
structure AuthManager where
  username : Option String
  token : String
  base_url : String
deriving DecidableEq, Repr

/-- Error taxonomy for construction: pydantic raises a validation error when
the required `token` field is missing. -/
inductive ConfigurationError where
  | missingToken
deriving DecidableEq, Repr

/-- Error taxonomy for a request: the session raises on connection failures and
transport-level error responses; `response.json()` raises on an unparsable
body. The source catches none of them, so both propagate to the caller. -/
inductive RequestError where
  | transportFailure
  | decodeFailure
deriving DecidableEq, Repr

/-- Pydantic construction of `AuthManager`: a missing required `token` field is
a validation error; defaults are applied to the optional fields. An
empty-string token is a valid `str` and passes field validation. -/
def mkAuthManager (username : Option String) (token : Option String)
    (base_url : Option String) : Except ConfigurationError AuthManager :=
  match token with
  | none => .error .missingToken
  | some t => .ok { username := username, token := t,
                    base_url := base_url.getD "https://api.url" }

/-- The fixed version segment of `AuthManager.api_url` (`api_prefix` in the source). -/
def apiV1 : String := "api/v1"

/-- Model of `AuthManager.api_url`: the source returns the URL f-string made
of `self.base_url`, a literal slash, and `api_prefix` — a plain join, with no
slash stripping on `base_url`. -/
def api_url (m : AuthManager) : String := m.base_url ++ "/" ++ apiV1

/-- Python truthiness of `Optional[str]`: `None` and `""` are falsy. -/
def optTruthy : Option String → Bool
  | none => false
  | some s => s ≠ ""

/-- Python truthiness of `str`: `""` is falsy. -/
def strTruthy (s : String) : Bool := s ≠ ""

/-- Model of `AuthManager.headers(bearer)`: always `Content-Type`, `Accept` and the
generated `User-Agent`; the `Authorization: Bearer <token>` entry only when
`bearer` is true. The generated user agent is a parameter (`user_agent.
generate_user_agent()` is an external library call). -/
def headersFor (m : AuthManager) (ua : String) (bearer : Bool) :
    List (String × String) :=
  [("Content-Type", "application/json"),
   ("Accept", "application/json"),
   ("User-Agent", ua)] ++
  (if bearer then [("Authorization", "Bearer " ++ m.token)] else [])

/-- Line 74: `BasicAuth(self.username, self.token) if self.username and self.token
else None`. -/
def basicAuth (m : AuthManager) : Option (String × String) :=
  if optTruthy m.username && strTruthy m.token
  then some (m.username.getD "", m.token) else none

/-- Line 75: `headers = self.headers(bearer=not bool(auth))` (a `BasicAuth`
instance is a non-empty namedtuple, hence truthy). -/
def reqHeaders (m : AuthManager) (ua : String) : List (String × String) :=
  headersFor m ua (!(basicAuth m).isSome)

/-- Line 73: `url = self.api_url / endpoint.lstrip('/')`. -/
def requestUrl (m : AuthManager) (endpoint : String) : String :=
  urlDiv (api_url m) (lstripSlash endpoint)

/-- Python `method.lower()`, modelled character-wise. -/
def strLower (s : String) : String := ⟨s.data.map Char.toLower⟩

/-- HTTP verbs exposed as request methods on an aiohttp `ClientSession`. -/
inductive HttpVerb where
  | get | post | put | patch | delete | head | options
deriving DecidableEq, Repr

/-- Which strings name one of the seven HTTP-verb request coroutines of an
aiohttp `ClientSession` (only part of its attribute surface: the non-verb
attributes are listed in `sessionAttrs` below). -/
def sessionVerb? (s : String) : Option HttpVerb :=
  if s = "get" then some .get
  else if s = "post" then some .post
  else if s = "put" then some .put
  else if s = "patch" then some .patch
  else if s = "delete" then some .delete
  else if s = "head" then some .head
  else if s = "options" then some .options
  else none

/-- Verb used by `request` when the lowered method string resolves to a verb
coroutine or to no session attribute at all. The full attribute lookup of line
77 — `requester = getattr(session, method.lower(), session.get)` — is modelled
by `getattrLine77` below; method strings naming a non-verb attribute resolve
to that attribute instead and never issue a verb request. -/
def selectVerb (method : String) : HttpVerb :=
  (sessionVerb? (strLower method)).getD .get

/-- Non-verb attributes of an aiohttp `ClientSession` that an attribute lookup
resolves before the `session.get` default can apply: lifecycle methods
(`close`, `detach`), the generic `request` and websocket (`ws_connect`) entry
points, and read-only properties. -/
def sessionAttrs : List String :=
  ["close", "closed", "detach", "request", "ws_connect", "connector",
   "cookie_jar", "headers", "auth", "timeout", "version", "trust_env"]

/-- What `getattr(session, method.lower(), session.get)` can return: a bound
HTTP-verb request coroutine, or some other existing session attribute (with
its name). -/
inductive Requester where
  | verbCoroutine (v : HttpVerb)
  | otherAttr (name : String)
deriving DecidableEq, Repr

/-- Faithful model of line 77: the lowered method string resolves to the verb
coroutine it names, else to any other existing `ClientSession` attribute it
names, and only falls back to `session.get` when it names no attribute at
all. -/
def getattrLine77 (method : String) : Requester :=
  match sessionVerb? (strLower method) with
  | some v => .verbCoroutine v
  | none =>
    if strLower method ∈ sessionAttrs then .otherAttr (strLower method)
    else .verbCoroutine .get

/-- Whether the resolved requester, called as on line 78 with the positional
url and the headers/params keywords, issues an HTTP request: only the verb
coroutines do. A non-verb attribute does not — e.g. the bound `close` method
accepts neither a positional url nor those keywords, so the call raises
TypeError before any network activity. -/
def issuesHttpCall : Requester → Bool
  | .verbCoroutine _ => true
  | .otherAttr _ => false

/-- What the external network does with one outgoing request: given the verb,
url, headers, optional basic-auth credentials and optional query params it
either fails (connection failure or transport-level error response) or yields
a response body. -/
def Transport : Type :=
  HttpVerb → String → List (String × String) → Option (String × String) →
    Option (List (String × String)) → Except Unit String

/-- Model of `RequestManager.request(endpoint, method, params)`: compute the target url,
decide the auth mechanism, derive headers, select the verb, perform the single
network call and decode the body as JSON. `decodeJson` models the external
`response.json()` decoder into an abstract JSON value type `J`; every failure
propagates, nothing is caught or retried. -/
def request {J : Type} (m : AuthManager) (ua : String) (endpoint : String)
    (method : String) (params : Option (List (String × String)))
    (tr : Transport) (decodeJson : String → Option J) :
    Except RequestError J :=
  let url := requestUrl m endpoint
  let auth := basicAuth m
  let headers := headersFor m ua (!auth.isSome)
  match tr (selectVerb method) url headers auth params with
  | .error _ => .error .transportFailure
  | .ok body =>
    match decodeJson body with
    | none => .error .decodeFailure
    | some j => .ok j

/-- State-passing form of `request`: the method reads `self` and never assigns
to it, so the thread of state is read-only. -/
def requestSt {J : Type} (ua : String) (endpoint : String) (method : String)
    (params : Option (List (String × String))) (tr : Transport)
    (decodeJson : String → Option J) :
    StateM AuthManager (Except RequestError J) := do
  let m ← get
  pure (request m ua endpoint method params tr decodeJson)

/-! Helper lemmas about `dropWhile`-based slash stripping. -/

theorem dropWhile_self {α : Type} (p : α → Bool) (l : List α) :
    (l.dropWhile p).dropWhile p = l.dropWhile p := by
  induction l with
  | nil => rfl
  | cons c l ih =>
    by_cases h : p c
    · simpa [List.dropWhile_cons_of_pos h] using ih
    · simp [List.dropWhile_cons_of_neg h, h]

theorem dropWhile_app {α : Type} [DecidableEq α] (p : α → Bool) (x y : List α) :
    (x ++ y).dropWhile p =
      if x.dropWhile p = [] then y.dropWhile p else x.dropWhile p ++ y := by
  induction x with
  | nil => simp
  | cons c x ih =>
    by_cases h : p c
    · simpa [List.dropWhile_cons_of_pos h] using ih
    · simp [List.dropWhile_cons_of_neg h, h]

theorem dropWhile_of_head {α : Type} (p : α → Bool) (l : List α)
    (h : ∀ a, l.head? = some a → p a = false) : l.dropWhile p = l := by
  cases l with
  | nil => rfl
  | cons c l =>
    have hc : p c = false := h c rfl
    simp [List.dropWhile_cons, hc]

theorem lstripL_eq_nil_iff (l : List Char) :
    lstripL l = [] ↔ ∀ c ∈ l, isSlash c := by
  simp [lstripL, List.dropWhile_eq_nil_iff]

theorem rstripL_eq_nil_iff (l : List Char) :
    rstripL l = [] ↔ ∀ c ∈ l, isSlash c := by
  simp [rstripL, List.dropWhile_eq_nil_iff]

theorem lstripL_lstripL (l : List Char) : lstripL (lstripL l) = lstripL l :=
  dropWhile_self isSlash l

theorem rstripL_rstripL (l : List Char) : rstripL (rstripL l) = rstripL l := by
  simp [rstripL, dropWhile_self]

theorem lstripL_cons_slash (l : List Char) : lstripL ('/' :: l) = lstripL l := by
  simp [lstripL, List.dropWhile_cons, isSlash]

theorem lstripL_app (x y : List Char) :
    lstripL (x ++ '/' :: y) =
      if lstripL x = [] then lstripL y else lstripL x ++ '/' :: y := by
  unfold lstripL
  rw [dropWhile_app]
  by_cases h : x.dropWhile isSlash = []
  · simp [h, List.dropWhile_cons, isSlash]
  · simp [h]

theorem rstripL_app (x y : List Char) :
    rstripL (x ++ '/' :: y) =
      if rstripL y = [] then rstripL x else x ++ '/' :: rstripL y := by
  unfold rstripL
  rw [show (x ++ '/' :: y).reverse = y.reverse ++ '/' :: x.reverse by simp,
      dropWhile_app]
  by_cases h : y.reverse.dropWhile isSlash = []
  · simp [h, List.dropWhile_cons, isSlash]
  · have h' : ¬ (y.reverse.dropWhile isSlash).reverse = [] := by
      simpa using h
    simp [h, h', List.dropWhile_cons, isSlash]

theorem rstripL_cons (c : Char) (l : List Char) :
    rstripL (c :: l) =
      if rstripL l = [] then (if isSlash c then [] else [c])
      else c :: rstripL l := by
  unfold rstripL
  rw [show (c :: l).reverse = l.reverse ++ [c] by simp, dropWhile_app]
  by_cases h : l.reverse.dropWhile isSlash = []
  · by_cases hc : isSlash c <;> simp [h, List.dropWhile_cons, hc]
  · have h' : ¬ (l.reverse.dropWhile isSlash).reverse = [] := by
      simpa using h
    simp [h, h']

theorem lstrip_rstrip_comm (l : List Char) :
    lstripL (rstripL l) = rstripL (lstripL l) := by
  induction l with
  | nil => rfl
  | cons c l ih =>
    by_cases hc : isSlash c
    · have hc' : c = '/' := by
        have := hc
        simp only [isSlash, beq_iff_eq] at this
        exact this
      subst hc'
      rw [rstripL_cons, lstripL_cons_slash]
      by_cases h : rstripL l = []
      · have hl : lstripL l = [] :=
          (lstripL_eq_nil_iff l).2 ((rstripL_eq_nil_iff l).1 h)
        rw [if_pos h, if_pos hc, hl]
        rfl
      · rw [if_neg h, lstripL_cons_slash, ih]
    · have hcf : isSlash c = false := by
        cases hb : isSlash c
        · rfl
        · exact absurd hb hc
      have hlc : lstripL (c :: l) = c :: l :=
        dropWhile_of_head _ _ (by intro a ha; cases ha; exact hcf)
      rw [rstripL_cons, hlc, rstripL_cons]
      by_cases h : rstripL l = []
      · rw [if_pos h, if_neg hc]
        exact dropWhile_of_head _ _ (by intro a ha; cases ha; exact hcf)
      · rw [if_neg h]
        exact dropWhile_of_head _ _ (by intro a ha; cases ha; exact hcf)

theorem dropWhile_replicate (n : Nat) :
    (List.replicate n '/').dropWhile isSlash = [] := by
  rw [List.dropWhile_eq_nil_iff]
  intro c hc
  rw [(List.mem_replicate.1 hc).2]
  rfl

theorem rstripL_eq_self (l : List Char) (h : l.getLast? ≠ some '/') :
    rstripL l = l := by
  unfold rstripL
  rw [dropWhile_of_head isSlash l.reverse ?_, List.reverse_reverse]
  intro a ha
  rw [List.head?_reverse] at ha
  cases hb : isSlash a
  · rfl
  · exfalso
    have ha' : a = '/' := by
      have := hb
      simp only [isSlash, beq_iff_eq] at this
      exact this
    exact h (ha' ▸ ha)

theorem lstripL_eq_self (l : List Char) (h : l.head? ≠ some '/') :
    lstripL l = l := by
  apply dropWhile_of_head
  intro a ha
  cases hb : isSlash a
  · rfl
  · exfalso
    have ha' : a = '/' := by
      have := hb
      simp only [isSlash, beq_iff_eq] at this
      exact this
    exact h (ha' ▸ ha)

theorem rstripL_app_replicate (l : List Char) (i : Nat) :
    rstripL (l ++ List.replicate i '/') = rstripL l := by
  unfold rstripL
  rw [List.reverse_append, List.reverse_replicate, dropWhile_app,
      if_pos (dropWhile_replicate i)]

theorem lstripL_replicate_app (l : List Char) (j : Nat) :
    lstripL (List.replicate j '/' ++ l) = lstripL l := by
  unfold lstripL
  rw [dropWhile_app, if_pos (dropWhile_replicate j)]

theorem joinL_assoc (a b c : List Char) :
    joinL (joinL a b) c = joinL a (joinL b c) := by
  unfold joinL
  rw [rstripL_app, lstripL_app, lstrip_rstrip_comm]
  by_cases h : rstripL (lstripL b) = []
  · simp [h, rstripL_rstripL, lstripL_lstripL]
  · simp [h]

/-! Lifting the list-level facts to `String`. -/

theorem urlDiv_data (a b : String) :
    (urlDiv a b).data = joinL a.data b.data := by
  simp [urlDiv, joinL, rstripSlash, lstripSlash]

theorem slashes_data (n : Nat) : (slashes n).data = List.replicate n '/' := rfl

theorem urlDiv_assoc (a b c : String) :
    urlDiv (urlDiv a b) c = urlDiv a (urlDiv b c) := by
  apply String.ext
  rw [urlDiv_data, urlDiv_data, urlDiv_data, urlDiv_data]
  exact joinL_assoc a.data b.data c.data

theorem rstripSlash_eq_self (s : String) (h : s.data.getLast? ≠ some '/') :
    rstripSlash s = s :=
  String.ext (rstripL_eq_self s.data h)

/-! Claim theorems. -/

/-- C1 fails on the code: `api_url` is a plain f-string join that does not
strip the trailing slash of `base_url`, so the Authority with base_url
"https://api.url/" yields "https://api.url//api/v1", not the claimed
"https://api.url/api/v1". -/
theorem C1_counterexample :
    api_url ⟨none, "T", "https://api.url/"⟩ = "https://api.url//api/v1" ∧
    api_url ⟨none, "T", "https://api.url/"⟩ ≠ "https://api.url/api/v1" := by
  exact ⟨by decide, by decide⟩

/-- C1 amended: `api_url` joins `base_url` to "api/v1" with one literal `/`
and strips nothing; it agrees with the normalized join `urlDiv` exactly when
`base_url` does not end in a slash. -/
theorem C1_apiRoot (m : AuthManager) (h : m.base_url.data.getLast? ≠ some '/') :
    api_url m = m.base_url ++ "/" ++ apiV1 ∧
    api_url m = urlDiv m.base_url apiV1 := by
  refine ⟨rfl, ?_⟩
  unfold api_url urlDiv
  rw [rstripSlash_eq_self m.base_url h]
  rfl

/-- Witness for C1 amended at the default base url. -/
theorem C1_apiRoot_witness :
    api_url ⟨none, "T", "https://api.url"⟩ =
      urlDiv "https://api.url" apiV1 :=
  (C1_apiRoot ⟨none, "T", "https://api.url"⟩ (by decide)).2

/-- C3 fails on the code: since `api_url` keeps the trailing slash of
`base_url`, the target of `Request("users/1")` for base_url "https://api.url/"
is "https://api.url//api/v1/users/1", not the claimed single-slash URL. -/
theorem C3_counterexample :
    requestUrl ⟨none, "T", "https://api.url/"⟩ "users/1" =
      "https://api.url//api/v1/users/1" ∧
    requestUrl ⟨none, "T", "https://api.url/"⟩ "users/1" ≠
      "https://api.url/api/v1/users/1" := by
  exact ⟨by decide, by decide⟩

/-- C3 amended: the target URL is `urlDiv (api_url m) (lstrip endpoint)`, which
always equals `base_url ++ "/" ++ "api/v1" ++ "/" ++ lstrip endpoint`: exactly
one slash separates "api/v1" from the endpoint, but the slash after `base_url`
is the literal one of the f-string, so a trailing slash on `base_url` survives
as a double slash. -/
theorem C3_requestUrl (m : AuthManager) (endpoint : String) :
    requestUrl m endpoint = urlDiv (api_url m) (lstripSlash endpoint) ∧
    requestUrl m endpoint =
      m.base_url ++ "/" ++ apiV1 ++ "/" ++ lstripSlash endpoint := by
  refine ⟨rfl, String.ext ?_⟩
  show (urlDiv (api_url m) (lstripSlash endpoint)).data = _
  rw [urlDiv_data]
  show joinL (m.base_url ++ "/" ++ apiV1).data (lstripL endpoint.data) = _
  unfold joinL
  have h1 : (m.base_url ++ "/" ++ apiV1).data =
      m.base_url.data ++ '/' :: apiV1.data := by
    simp
  rw [h1, rstripL_app, if_neg (by decide), lstripL_lstripL]
  · show _ = (m.base_url ++ "/" ++ apiV1 ++ "/" ++ lstripSlash endpoint).data
    simp [lstripSlash, lstripL]
    decide

/-- C4 fails on the code for the empty-string half: pydantic only rejects a
missing `token` field; an empty-string token passes validation, so this
construction succeeds (and its Authority violates the non-empty-token
invariant). -/
theorem C4_counterexample :
    mkAuthManager (some "user") (some "") none =
      .ok ⟨some "user", "", "https://api.url"⟩ ∧
    mkAuthManager (some "user") (some "") none ≠
      .error .missingToken := by
  exact ⟨rfl, fun h => Except.noConfusion h⟩

/-- C4 amended: construction with a missing token fails with
`ConfigurationError` before any network activity, but any present string—
including the empty string—is accepted, and the constructed Authority stores
it verbatim. -/
theorem C4_construction (u : Option String) (t : String) (b : Option String) :
    mkAuthManager u none b = .error .missingToken ∧
    mkAuthManager u (some t) b = .ok ⟨u, t, b.getD "https://api.url"⟩ :=
  ⟨rfl, rfl⟩

/-- C7 confirmed: `URL.__truediv__` strips trailing slashes on the left and
leading slashes on the right, joins with one slash, is associative (hence
`root / "a" / "b" = root / "a/b"`), and for 0-3 trailing/leading slashes
around slash-free core strings it produces exactly one separating slash. -/
theorem C7_joinPath :
    (∀ a b c : String, urlDiv (urlDiv a b) c = urlDiv a (urlDiv b c)) ∧
    (∀ root : String, urlDiv (urlDiv root "a") "b" = urlDiv root "a/b") ∧
    (∀ (u seg : String) (i j : Nat), i ≤ 3 → j ≤ 3 →
      u.data.getLast? ≠ some '/' → seg.data.head? ≠ some '/' →
      urlDiv (u ++ slashes i) (slashes j ++ seg) = u ++ "/" ++ seg) := by
  refine ⟨urlDiv_assoc, ?_, ?_⟩
  · intro root
    rw [urlDiv_assoc]
    have h : urlDiv "a" "b" = "a/b" := by decide
    rw [h]
  · intro u seg i j _ _ hu hseg
    apply String.ext
    rw [urlDiv_data]
    unfold joinL
    have h1 : (u ++ slashes i).data = u.data ++ List.replicate i '/' := by
      simp [slashes_data]
    have h2 : (slashes j ++ seg).data = List.replicate j '/' ++ seg.data := by
      simp [slashes_data]
    rw [h1, h2, show lstripL (List.replicate j '/' ++ seg.data) = lstripL seg.data
          from lstripL_replicate_app seg.data j,
        rstripL_app_replicate, rstripL_eq_self u.data hu,
        lstripL_eq_self seg.data hseg]
    simp

/-- Witness for C7 at a concrete base with two trailing and three leading
slashes. -/
theorem C7_joinPath_witness :
    urlDiv ("https://x" ++ slashes 2) (slashes 3 ++ "users") =
      "https://x" ++ "/" ++ "users" :=
  C7_joinPath.2.2 "https://x" "users" 2 3 (by decide) (by decide)
    (by decide) (by decide)

/-- C2 confirmed: when both `username` and `token` are non-empty the request
carries `BasicAuth(username, token)` and the computed headers have no
`Authorization` entry; otherwise no basic auth is used and the headers carry
`Authorization: Bearer <token>`. Whenever the token is non-empty, exactly one
of the two mechanisms is active. -/
theorem C2_authDecision (m : AuthManager) (ua : String) :
    ((optTruthy m.username && strTruthy m.token) = true →
       basicAuth m = some (m.username.getD "", m.token) ∧
       (reqHeaders m ua).lookup "Authorization" = none) ∧
    ((optTruthy m.username && strTruthy m.token) = false →
       basicAuth m = none ∧
       (reqHeaders m ua).lookup "Authorization" =
         some ("Bearer " ++ m.token)) ∧
    (m.token ≠ "" →
       Xor' ((basicAuth m).isSome = true)
         (((reqHeaders m ua).lookup "Authorization").isSome = true)) := by
  by_cases h : (optTruthy m.username && strTruthy m.token) = true
  · have hb : basicAuth m = some (m.username.getD "", m.token) := by
      unfold basicAuth
      rw [if_pos h]
    have hh : (reqHeaders m ua).lookup "Authorization" = none := by
      unfold reqHeaders
      rw [hb]
      rfl
    refine ⟨fun _ => ⟨hb, hh⟩, fun h' => absurd h (by simp [h']), fun _ => ?_⟩
    left
    rw [hb, hh]
    exact ⟨rfl, by simp⟩
  · have h' : (optTruthy m.username && strTruthy m.token) = false := by
      cases hb : (optTruthy m.username && strTruthy m.token)
      · rfl
      · exact absurd hb h
    have hb : basicAuth m = none := by
      unfold basicAuth
      rw [if_neg (by rw [h']; exact Bool.false_ne_true)]
    have hh : (reqHeaders m ua).lookup "Authorization" =
        some ("Bearer " ++ m.token) := by
      unfold reqHeaders
      rw [hb]
      rfl
    refine ⟨fun hc => absurd hc h, fun _ => ⟨hb, hh⟩, fun _ => ?_⟩
    right
    rw [hb, hh]
    exact ⟨rfl, by simp⟩

/-- Witness for C2 with both credentials present: basic auth is used and the
headers contain no Authorization entry. -/
theorem C2_authDecision_witness :
    basicAuth ⟨some "user", "T", "https://api.url"⟩ = some ("user", "T") ∧
    (reqHeaders ⟨some "user", "T", "https://api.url"⟩ "UA").lookup
      "Authorization" = none :=
  (C2_authDecision ⟨some "user", "T", "https://api.url"⟩ "UA").1 (by decide)

/-- C5 fails on the code: "CLOSE" is an unsupported method string, yet its
lowering names the session's `close` attribute, so `getattr` resolves that
attribute and never reaches the `session.get` default; the line-78 call on it
is a TypeError (the bound `close` accepts no such arguments), not a GET
request. -/
theorem C5_counterexample :
    getattrLine77 "CLOSE" = .otherAttr "close" ∧
    getattrLine77 "CLOSE" ≠ .verbCoroutine .get ∧
    issuesHttpCall (getattrLine77 "CLOSE") = false := by
  exact ⟨by decide, by decide, by decide⟩

/-- C5 amended: the requester is chosen case-insensitively from
`method.lower()`; a method string that names no `ClientSession` attribute
falls back to `session.get` (in particular "XPATCH" issues a GET request and
dispatches end to end exactly like "GET"), and whenever the lookup resolves to
an HTTP-verb coroutine it is the verb `request` uses — but a string naming a
non-verb session attribute resolves to that attribute instead of falling back
to GET, and the call then fails rather than issuing a request. -/
theorem C5_methodDispatch :
    (∀ s t : String, strLower s = strLower t →
      getattrLine77 s = getattrLine77 t) ∧
    (∀ s : String, sessionVerb? (strLower s) = none →
      strLower s ∉ sessionAttrs → getattrLine77 s = .verbCoroutine .get) ∧
    getattrLine77 "XPATCH" = .verbCoroutine .get ∧
    getattrLine77 "GET" = .verbCoroutine .get ∧
    getattrLine77 "Delete" = .verbCoroutine .delete ∧
    (∀ (s : String) (v : HttpVerb),
      getattrLine77 s = .verbCoroutine v → selectVerb s = v) ∧
    (∀ s : String, issuesHttpCall (getattrLine77 s) = false →
      strLower s ∈ sessionAttrs) ∧
    (∀ (J : Type) (m : AuthManager) (ua e : String)
       (p : Option (List (String × String))) (tr : Transport)
       (dec : String → Option J),
       request m ua e "XPATCH" p tr dec = request m ua e "GET" p tr dec) := by
  refine ⟨?_, ?_, by decide, by decide, by decide, ?_, ?_, ?_⟩
  · intro s t h
    unfold getattrLine77
    rw [h]
  · intro s h1 h2
    unfold getattrLine77
    rw [h1, if_neg h2]
  · intro s v h
    unfold getattrLine77 at h
    unfold selectVerb
    cases hv : sessionVerb? (strLower s)
    · rw [hv] at h
      by_cases hm : strLower s ∈ sessionAttrs
      · rw [if_pos hm] at h
        exact Requester.noConfusion h
      · rw [if_neg hm] at h
        have h' : HttpVerb.get = v := by injection h
        exact h'
    · rw [hv] at h
      have h' : Requester.verbCoroutine _ = Requester.verbCoroutine v := h
      injection h' with hw
  · intro s h
    unfold getattrLine77 at h
    cases hv : sessionVerb? (strLower s)
    · rw [hv] at h
      by_cases hm : strLower s ∈ sessionAttrs
      · exact hm
      · rw [if_neg hm] at h
        have h' : (true : Bool) = false := h
        exact Bool.noConfusion h'
    · rw [hv] at h
      have h' : (true : Bool) = false := h
      exact Bool.noConfusion h'
  · intro J m ua e p tr dec
    unfold request
    rw [show selectVerb "XPATCH" = selectVerb "GET" from by decide]

/-- Witness for C5 amended: "XPATCH" names no session attribute, so the
fallback conjunct yields the GET requester for it. -/
theorem C5_methodDispatch_witness :
    getattrLine77 "XPATCH" = .verbCoroutine .get :=
  C5_methodDispatch.2.1 "XPATCH" (by decide) (by decide)

theorem request_eq {J : Type} (m : AuthManager) (ua endpoint method : String)
    (params : Option (List (String × String))) (tr : Transport)
    (dec : String → Option J) :
    request m ua endpoint method params tr dec =
      match tr (selectVerb method) (requestUrl m endpoint) (reqHeaders m ua)
          (basicAuth m) params with
      | .error _ => .error .transportFailure
      | .ok body =>
        match dec body with
        | none => .error .decodeFailure
        | some j => .ok j := rfl

/-- C6 confirmed: a transport failure (connection failure or transport-raised
error response) surfaces as the transport-failure error, an unparsable body
surfaces as the decode-failure error, a decodable body of a successful call is
returned as the decoded JSON value, and no call yields both a value and a
failure. Nothing is caught, retried or recovered: the single transport outcome
determines the result. -/
theorem C6_errorPropagation {J : Type} (m : AuthManager)
    (ua endpoint method : String) (params : Option (List (String × String)))
    (tr : Transport) (dec : String → Option J) :
    (tr (selectVerb method) (requestUrl m endpoint) (reqHeaders m ua)
        (basicAuth m) params = .error () →
       request m ua endpoint method params tr dec = .error .transportFailure) ∧
    (∀ body, tr (selectVerb method) (requestUrl m endpoint) (reqHeaders m ua)
        (basicAuth m) params = .ok body → dec body = none →
       request m ua endpoint method params tr dec = .error .decodeFailure) ∧
    (∀ body j, tr (selectVerb method) (requestUrl m endpoint) (reqHeaders m ua)
        (basicAuth m) params = .ok body → dec body = some j →
       request m ua endpoint method params tr dec = .ok j) ∧
    (∀ e j, ¬(request m ua endpoint method params tr dec = .error e ∧
              request m ua endpoint method params tr dec = .ok j)) := by
  refine ⟨?_, ?_, ?_, ?_⟩
  · intro h
    rw [request_eq, h]
  · intro body h hd
    rw [request_eq, h]
    simp only [hd]
  · intro body j h hd
    rw [request_eq, h]
    simp only [hd]
  · intro e j h
    exact absurd (h.1.symm.trans h.2) (fun hx => Except.noConfusion hx)

/-- Witness for C6: a transport that fails makes the request surface the
transport failure. -/
theorem C6_errorPropagation_witness :
    request ⟨none, "T", "https://api.url"⟩ "UA" "users" "GET" none
      (fun _ _ _ _ _ => .error ()) (fun _ => (none : Option Nat)) =
      .error .transportFailure :=
  (C6_errorPropagation ⟨none, "T", "https://api.url"⟩ "UA" "users" "GET" none
    (fun _ _ _ _ _ => .error ()) (fun _ => (none : Option Nat))).1 rfl

/-- C8 confirmed: `headers(bearer=True)` is exactly Content-Type, Accept, the
generated User-Agent and `Authorization: Bearer <token>`, in that order;
`headers(bearer=False)` is the same list minus the Authorization entry. The
User-Agent value is the generated client identifier, non-empty per the
generator's contract. -/
theorem C8_headerSet (m : AuthManager) (ua : String) (h : ua ≠ "") :
    (headersFor m ua true).map Prod.fst =
      ["Content-Type", "Accept", "User-Agent", "Authorization"] ∧
    (headersFor m ua false).map Prod.fst =
      ["Content-Type", "Accept", "User-Agent"] ∧
    (headersFor m ua true).lookup "Content-Type" = some "application/json" ∧
    (headersFor m ua true).lookup "Accept" = some "application/json" ∧
    (headersFor m ua true).lookup "User-Agent" = some ua ∧ ua ≠ "" ∧
    (headersFor m ua true).lookup "Authorization" =
      some ("Bearer " ++ m.token) ∧
    (headersFor m ua false).lookup "Authorization" = none ∧
    headersFor m ua true =
      headersFor m ua false ++ [("Authorization", "Bearer " ++ m.token)] :=
  ⟨rfl, rfl, rfl, rfl, rfl, h, rfl, rfl, by simp [headersFor]⟩

/-- Witness for C8 at a concrete generated user agent. -/
theorem C8_headerSet_witness :
    (headersFor ⟨none, "T", "https://api.url"⟩ "UA" true).map Prod.fst =
      ["Content-Type", "Accept", "User-Agent", "Authorization"] :=
  (C8_headerSet ⟨none, "T", "https://api.url"⟩ "UA" (by decide)).1

/-- C9 confirmed: a `None` username and an empty-string username are both
falsy in `self.username and self.token`, so both disable basic auth, attach
the bearer header, and make `request` behave identically. -/
theorem C9_emptyUsername (J : Type) (token base ua endpoint method : String)
    (params : Option (List (String × String))) (tr : Transport)
    (dec : String → Option J) :
    basicAuth ⟨none, token, base⟩ = none ∧
    basicAuth ⟨some "", token, base⟩ = none ∧
    reqHeaders ⟨none, token, base⟩ ua = reqHeaders ⟨some "", token, base⟩ ua ∧
    (reqHeaders ⟨none, token, base⟩ ua).lookup "Authorization" =
      some ("Bearer " ++ token) ∧
    request ⟨none, token, base⟩ ua endpoint method params tr dec =
      request ⟨some "", token, base⟩ ua endpoint method params tr dec :=
  ⟨rfl, rfl, rfl, rfl, rfl⟩

/-- C10 confirmed: the request body only reads the manager (it assigns no
field), so in the state-passing form the post-state is the pre-state, field by
field, for every outcome of the call. -/
theorem C10_noStateMutation {J : Type} (m : AuthManager)
    (ua endpoint method : String) (params : Option (List (String × String)))
    (tr : Transport) (dec : String → Option J) :
    ((requestSt ua endpoint method params tr dec).run m).2 = m ∧
    ((requestSt ua endpoint method params tr dec).run m).2.username =
      m.username ∧
    ((requestSt ua endpoint method params tr dec).run m).2.token = m.token ∧
    ((requestSt ua endpoint method params tr dec).run m).2.base_url =
      m.base_url ∧
    ((requestSt ua endpoint method params tr dec).run m).1 =
      request m ua endpoint method params tr dec :=
  ⟨rfl, rfl, rfl, rfl, rfl⟩

end Manager
